import Mathlib

/-!
# ipa-server: the startup wiring of `cmd/ipa-server/ipa-server.go`

A shallow embedding of `redirect` and of the body of `main` (flag values, storage
backend selection, route registration, the static-file redirect map), and of the
metadata index and the service operation `remove` as the specification describes
them, followed by the properties established about them.

Go strings are byte sequences, Go maps are association lists with one entry per
key, a run-time panic is an error value, and an `http.Handler` is a function from
the response state and the request to the new response state.
-/

set_option autoImplicit false

namespace IpaServer

/-! ## Strings and maps -/

/-- A Go string: a finite sequence of bytes, each byte a natural number below 256. -/
abbrev GoString := List Nat

/-- The bytes (UTF-8) of a string literal of the source. -/
def lit (s : String) : GoString :=
  s.toUTF8.data.toList.map UInt8.toNat

/-- The call `fmt.Sprintf("/%s", s)`: a slash followed by the bytes of `s`. -/
def sprintfSlash (s : GoString) : GoString :=
  lit "/" ++ s

/-- A Go `map[string]string`: its entries, at most one per key. -/
structure GoMap where
  entries : List (GoString × GoString)
deriving DecidableEq, Repr

namespace GoMap

/-- The map with no entry. -/
def empty : GoMap :=
  ⟨[]⟩

/-- The comma-ok lookup `v, ok := m[k]`: `some v` when `k` is a key, `none` otherwise. -/
def get (m : GoMap) (k : GoString) : Option GoString :=
  m.entries.lookup k

/-- The assignment `m[k] = v`: an earlier entry for `k` is replaced. -/
def set (m : GoMap) (k v : GoString) : GoMap :=
  ⟨(k, v) :: m.entries.filter (fun e => e.1 != k)⟩

end GoMap

/-! ## Requests and handlers -/

/-- An `*http.Request`: the field `URL.Path`, and everything else of the request
(method, header, body, the other fields of the URL) as one value. -/
structure Request (ρ : Type) where
  Path : GoString
  other : ρ
deriving DecidableEq, Repr

/-- An `http.Handler`: `ServeHTTP(w, r)` takes the response state `w` and the request
and leaves a new response state. -/
abbrev Handler (ρ ω : Type) := ω → Request ρ → ω

/-- A downstream handler that only records the requests it is asked to serve, in order. -/
def recorder (ρ : Type) : Handler ρ (List (Request ρ)) :=
  fun w r => w ++ [r]

/-- The function `redirect` (ipa-server.go, lines 30-38). -/
def redirect {ρ ω : Type} (m : GoMap) (next : Handler ρ ω) : Handler ρ ω :=
  fun w r =>
    match m.get r.Path with
    | some p => next w { r with Path := p }
    | none => next w r

/-- The map literal handed to `redirect` in `main` (lines 110-114). Its second key is
not a constant, so the literal is built by assigning the entries in source order:
when the metadata path is `key`, the second entry replaces the first. -/
def staticRedirects (metadataPath u : GoString) : GoMap :=
  (GoMap.empty.set (lit "/key") (lit "/key.html")).set
    (sprintfSlash metadataPath) (sprintfSlash u)

/-- The handler registered at `/` in `main`: `redirect` over the static file server,
where `u` is the string `uuid.NewString()` returned at startup. -/
def staticHandler {ρ ω : Type} (metadataPath u : GoString) (fileServer : Handler ρ ω) :
    Handler ρ ω :=
  redirect (staticRedirects metadataPath u) fileServer

/-! ## Flags -/

/-- The values of the command-line flags after `flag.Parse()` (lines 42-49). -/
structure Flags where
  debug : Bool
  storageDir : GoString
  publicURL : GoString
  metadataPath : GoString
  qiniuConfig : GoString
  qiniuURL : GoString
deriving DecidableEq, Repr

/-- The flag values when the command line sets no flag: the defaults given to
`flag.Bool` and `flag.String` in `main`. -/
def defaultFlags : Flags where
  debug := false
  storageDir := lit "upload"
  publicURL := lit ""
  metadataPath := lit "appList.json"
  qiniuConfig := lit ""
  qiniuURL := lit ""

/-! ## Panics, `strings.Split`, slice indexing -/

/-- The ways the startup code of `main` stops with a run-time panic. -/
inductive Panic (ε : Type) where
  /-- The run-time error `index out of range [index] with length length`. -/
  | indexOutOfRange (index length : Nat)
  /-- The statement `panic(err)` with the error reported by `NewQiniuStorager`. -/
  | constructorError (err : ε)
  /-- The panic of `ServeMux.Handle` on an empty or an already registered pattern. -/
  | muxPattern (pattern : GoString)
deriving DecidableEq, Repr

/-- The byte `:`. -/
def colon : Nat := 58

/-- The call `strings.Split(s, sep)` for a separator `sep` of one byte, the form `main`
uses: the fields of `s` between the occurrences of `sep`, one more than there are
occurrences (a string without `sep` is returned as the only field). -/
def stringsSplit (sep : Nat) : GoString → List GoString
  | [] => [[]]
  | c :: rest =>
    if c = sep then
      [] :: stringsSplit sep rest
    else
      match stringsSplit sep rest with
      -- not reached: a split always has at least one field
      | [] => [[c]]
      | field :: fields => (c :: field) :: fields

/-- The index expression `args[i]` on a slice: the element, or the run-time panic when
`i` is not below the length. -/
def index {ε : Type} (args : List GoString) (i : Nat) : Except (Panic ε) GoString :=
  match args[i]? with
  | some a => .ok a
  | none => .error (.indexOutOfRange i args.length)

/-! ## Storage backend selection -/

/-- A value of the interface `storager.Storager` as `main` builds it: either what
`storager.NewQiniuStorager` returned (the remote object storage), or the result of
`storager.NewOsFileStorager(dir)` (the local file system rooted at `dir`). -/
inductive Storager (Q : Type) where
  | qiniu (s : Q)
  | osFile (dir : GoString)
deriving DecidableEq, Repr

/-- A call of one of the two backend constructors, with its arguments in order. -/
inductive ConstructorCall where
  | NewQiniuStorager (ak sk zone bucket url : GoString)
  | NewOsFileStorager (dir : GoString)
deriving DecidableEq, Repr

/-- What a piece of startup code did: the constructor calls it made, in order, and
the value it produced or the panic it stopped with. -/
structure Run (ε α : Type) where
  calls : List ConstructorCall
  result : Except (Panic ε) α

/-- The operands `args[0], args[1], args[2], args[3]` of the constructor call at
line 61, evaluated from left to right on `strings.Split(*qiniuConfig, ":")`. -/
def qiniuArgs {ε : Type} (qiniuConfig : GoString) :
    Except (Panic ε) (GoString × GoString × GoString × GoString) := do
  let args := stringsSplit colon qiniuConfig
  let a0 ← index args 0
  let a1 ← index args 1
  let a2 ← index args 2
  let a3 ← index args 3
  pure (a0, a1, a2, a3)

/-- The backend selection of `main` (lines 58-68). The constructor
`storager.NewQiniuStorager` lives in a package outside this file and is the
parameter `newQiniu`. -/
def selectStore {ε Q : Type}
    (newQiniu : GoString → GoString → GoString → GoString → GoString → Except ε Q)
    (f : Flags) : Run ε (Storager Q) :=
  if f.qiniuConfig ≠ lit "" then
    match qiniuArgs f.qiniuConfig with
    | .error p => ⟨[], .error p⟩
    | .ok (ak, sk, zone, bucket) =>
      match newQiniu ak sk zone bucket f.qiniuURL with
      | .error err =>
        ⟨[.NewQiniuStorager ak sk zone bucket f.qiniuURL], .error (.constructorError err)⟩
      | .ok s =>
        ⟨[.NewQiniuStorager ak sk zone bucket f.qiniuURL], .ok (.qiniu s)⟩
  else
    ⟨[.NewOsFileStorager f.storageDir], .ok (.osFile f.storageDir)⟩

/-! ## The service and the routes -/

/-- The value `srv` of line 70, `service.New(store, *publicURL, *metadataPath)`, as
the arguments it was built from. -/
structure Service (Q : Type) where
  store : Storager Q
  publicURL : GoString
  metadataPath : GoString
deriving DecidableEq, Repr

/-- The five endpoint makers `service.MakeListEndpoint`, `MakeFindEndpoint`,
`MakeAddEndpoint`, `MakeDeleteEndpoint`, `MakePlistEndpoint`. -/
inductive Endpoint where
  | list | find | add | delete | plist
deriving DecidableEq, Repr

/-- The request decoders `service.DecodeListRequest`, ..., `service.DecodePlistRequest`. -/
inductive Decoder where
  | list | find | add | delete | plist
deriving DecidableEq, Repr

/-- The response encoders `service.EncodeJsonResponse` and `service.EncodePlistResponse`. -/
inductive Encoder where
  | json | plist
deriving DecidableEq, Repr

/-- A handler `httptransport.NewServer(service.LoggingMiddleware(logger, label, debug)
(endpoint(srv)), decode, encode)`. -/
structure KitServer (Q : Type) where
  label : GoString
  debug : Bool
  endpoint : Endpoint
  srv : Service Q
  decode : Decoder
  encode : Encoder
deriving DecidableEq, Repr

/-- A handler registered on the mux: one of the kit servers, or the `redirect` handler
over the static file server, given by its map. -/
inductive RouteHandler (Q : Type) where
  | api (h : KitServer Q)
  | static (redirects : GoMap)
deriving DecidableEq, Repr

/-- An `http.ServeMux`: the registered patterns with their handlers, in registration
order. -/
structure ServeMux (Q : Type) where
  entries : List (GoString × RouteHandler Q)
deriving DecidableEq, Repr

namespace ServeMux

/-- The call `http.NewServeMux()`. -/
def new (Q : Type) : ServeMux Q :=
  ⟨[]⟩

/-- The registered patterns, in registration order. -/
def patterns {Q : Type} (mux : ServeMux Q) : List GoString :=
  mux.entries.map (fun e => e.1)

/-- The handler registered for exactly the pattern `pattern`, if any. -/
def handlerAt {Q : Type} (mux : ServeMux Q) (pattern : GoString) : Option (RouteHandler Q) :=
  mux.entries.lookup pattern

/-- The method `Handle(pattern, handler)`: it panics on the empty pattern and on a
pattern that is already registered, and adds the entry otherwise. -/
def Handle {ε Q : Type} (mux : ServeMux Q) (pattern : GoString) (handler : RouteHandler Q) :
    Except (Panic ε) (ServeMux Q) :=
  if pattern = [] then
    .error (.muxPattern pattern)
  else if pattern ∈ mux.patterns then
    .error (.muxPattern pattern)
  else
    .ok ⟨mux.entries ++ [(pattern, handler)]⟩

end ServeMux

/-- The handlers `listHandler`, `findHandler`, `addHandler`, `deleteHandler` and
`plistHandler` of lines 71-95. -/
def listHandler {Q : Type} (srv : Service Q) (f : Flags) : KitServer Q :=
  ⟨lit "/api/list", f.debug, .list, srv, .list, .json⟩

def findHandler {Q : Type} (srv : Service Q) (f : Flags) : KitServer Q :=
  ⟨lit "/api/info", f.debug, .find, srv, .find, .json⟩

def addHandler {Q : Type} (srv : Service Q) (f : Flags) : KitServer Q :=
  ⟨lit "/api/upload", f.debug, .add, srv, .add, .json⟩

def deleteHandler {Q : Type} (srv : Service Q) (f : Flags) : KitServer Q :=
  ⟨lit "/api/delete", f.debug, .delete, srv, .delete, .json⟩

def plistHandler {Q : Type} (srv : Service Q) (f : Flags) : KitServer Q :=
  ⟨lit "/plist", f.debug, .plist, srv, .plist, .plist⟩

/-- The route registration of `main` (lines 98-114): the six calls of `serve.Handle`
on a new mux, in source order. -/
def registerRoutes {ε Q : Type} (srv : Service Q) (f : Flags) (u : GoString) :
    Except (Panic ε) (ServeMux Q) := do
  let serve := ServeMux.new Q
  let serve ← serve.Handle (lit "/api/list") (.api (listHandler srv f))
  let serve ← serve.Handle (lit "/api/info/") (.api (findHandler srv f))
  let serve ← serve.Handle (lit "/api/upload") (.api (addHandler srv f))
  let serve ← serve.Handle (lit "/api/delete") (.api (deleteHandler srv f))
  let serve ← serve.Handle (lit "/plist/") (.api (plistHandler srv f))
  serve.Handle (lit "/") (.static (staticRedirects f.metadataPath u))

/-- What `main` has built when it reaches `http.ListenAndServe`: the service and
the mux. -/
structure Server (Q : Type) where
  srv : Service Q
  serve : ServeMux Q
deriving DecidableEq, Repr

/-- The body of `main` from the parsed flags up to `http.ListenAndServe` (lines 58-114):
backend selection, `service.New`, route registration. `u` is the string returned by
`uuid.NewString()`. -/
def main {ε Q : Type}
    (newQiniu : GoString → GoString → GoString → GoString → GoString → Except ε Q)
    (u : GoString) (f : Flags) : Run ε (Server Q) :=
  let selected := selectStore newQiniu f
  match selected.result with
  | .error p => ⟨selected.calls, .error p⟩
  | .ok store =>
    let srv : Service Q := ⟨store, f.publicURL, f.metadataPath⟩
    match registerRoutes srv f u with
    | .error p => ⟨selected.calls, .error p⟩
    | .ok serve => ⟨selected.calls, .ok ⟨srv, serve⟩⟩

/-! ## The metadata index and the distribution service

The package `cmd/ipa-server/service`, whose endpoints `main` wires to the routes, is not
part of the sources at hand. The definitions of this section follow sections 3, 4.2, 4.3
and 4.4 of the specification. -/

/-- Modelled from the spec: the record `ApplicationRecord` of section 3, defined in the
package `service`, which is missing from the sources. -/
structure ApplicationRecord where
  id : GoString
  bundleIdentifier : GoString
  version : GoString
  displayName : GoString
  iconRelativePath : Option GoString
  archiveRelativePath : GoString
  size : Nat
  createdAt : Nat
deriving DecidableEq, Repr

/-- Modelled from the spec: the `MetadataIndex` of section 3, missing from the sources:
the ordered collection of the records, with the invariant that `id` is unique across
the index. -/
structure MetadataIndex where
  records : List ApplicationRecord
  unique : (records.map (fun r => r.id)).Nodup

/-- Modelled from the spec: the failure kinds `NotFound` and `DuplicateID` of the index
operations (section 4.3), missing from the sources. -/
inductive IndexError where
  | NotFound
  | DuplicateID
deriving DecidableEq, Repr

/-- Modelled from the spec: the failure kinds `NotFound` and `StorageFailure` of the
backend operations (section 4.2), missing from the sources. -/
inductive StorageError where
  | NotFound
  | StorageFailure
deriving DecidableEq, Repr

namespace MetadataIndex

/-- Modelled from the spec: the index loaded when no snapshot exists (section 3), missing
from the sources: the empty index. -/
def empty : MetadataIndex :=
  ⟨[], List.nodup_nil⟩

/-- Modelled from the spec: the index operation `find(id) -> record | NotFound`
(section 4.3), missing from the sources. -/
def find (idx : MetadataIndex) (id : GoString) : Except IndexError ApplicationRecord :=
  match idx.records.find? (fun r => r.id == id) with
  | some r => .ok r
  | none => .error .NotFound

/-- Modelled from the spec: the index operation `list()` (section 4.3), missing from the
sources: the records in insertion order. -/
def list (idx : MetadataIndex) : List ApplicationRecord :=
  idx.records

/-- Modelled from the spec: the index operation `add(record)` (section 4.3), missing
from the sources: it fails with `DuplicateID` rather than overwrite, and otherwise puts
the record last. -/
def add (idx : MetadataIndex) (r : ApplicationRecord) : Except IndexError MetadataIndex :=
  if h : r.id ∈ idx.records.map (fun r => r.id) then
    .error .DuplicateID
  else
    .ok ⟨idx.records ++ [r], by
      rw [List.map_append, List.nodup_append]
      refine ⟨idx.unique, List.nodup_singleton _, ?_⟩
      intro a ha hb
      rw [List.map_singleton, List.mem_singleton] at hb
      exact h (hb ▸ ha)⟩

/-- Modelled from the spec: the index operation `remove(id) -> ok | NotFound`
(section 4.3), missing from the sources: the entry with this identifier is taken out. -/
def remove (idx : MetadataIndex) (id : GoString) : Except IndexError MetadataIndex :=
  match idx.records.find? (fun r => r.id == id) with
  | some _ =>
    .ok ⟨idx.records.eraseP (fun r => r.id == id),
      idx.unique.sublist ((List.eraseP_sublist idx.records).map _)⟩
  | none => .error .NotFound

end MetadataIndex

/-- Modelled from the spec: the capability set of the Storage Backend (section 4.2),
defined in the package `pkg/storager`, which is missing from the sources. `B` is the
state of the durable medium. -/
structure Backend (B : Type) where
  put : B → GoString → List Nat → Except StorageError B
  get : B → GoString → Except StorageError (List Nat)
  delete : B → GoString → Except StorageError B
  publicURL : GoString → GoString

/-- Modelled from the spec: the best-effort blob deletion of section 4.4, missing from
the sources: a failure of `delete` leaves the medium as it was and is not propagated. -/
def Backend.deleteBestEffort {B : Type} (backend : Backend B) (blobs : B) (key : GoString) :
    B :=
  match backend.delete blobs key with
  | .ok blobs2 => blobs2
  | .error _ => blobs

/-- Modelled from the spec: the state owned by the Distribution Service (sections 3 and
4.4), missing from the sources: the in-memory index and the blobs of the backend. -/
structure DistributionService (B : Type) where
  index : MetadataIndex
  blobs : B

namespace DistributionService

/-- Modelled from the spec: the service operation `find(id)` (section 4.4), missing from
the sources: a read delegated to the index. -/
def find {B : Type} (svc : DistributionService B) (id : GoString) :
    Except IndexError ApplicationRecord :=
  svc.index.find id

/-- Modelled from the spec: the service operation `list()` (section 4.4), missing from
the sources: a read delegated to the index. -/
def list {B : Type} (svc : DistributionService B) : List ApplicationRecord :=
  svc.index.list

/-- Modelled from the spec: the service operation `remove(id) -> ok | NotFound`
(section 4.4), missing from the sources: it looks up the record, deletes its archive and
icon blobs best-effort, then removes the index entry. The result is paired with the
state the service is left in. -/
def remove {B : Type} (backend : Backend B) (svc : DistributionService B) (id : GoString) :
    Except IndexError Unit × DistributionService B :=
  match svc.index.find id with
  | .error e => (.error e, svc)
  | .ok r =>
    let blobs1 := backend.deleteBestEffort svc.blobs r.archiveRelativePath
    let blobs2 :=
      match r.iconRelativePath with
      | some icon => backend.deleteBestEffort blobs1 icon
      | none => blobs1
    match svc.index.remove id with
    | .ok index2 => (.ok (), ⟨index2, blobs2⟩)
    | .error e => (.error e, ⟨svc.index, blobs2⟩)

end DistributionService

/-! ## Sample values -/

/-- A backend that keeps its blobs in memory, as a list of keys with their bytes. -/
def memoryBackend : Backend (List (GoString × List Nat)) where
  put blobs key bytes := .ok ((key, bytes) :: blobs.filter (fun e => e.1 != key))
  get blobs key :=
    match blobs.lookup key with
    | some bytes => .ok bytes
    | none => .error .NotFound
  delete blobs key :=
    match blobs.lookup key with
    | some _ => .ok (blobs.filter (fun e => e.1 != key))
    | none => .error .NotFound
  publicURL key := lit "/" ++ key

/-- A record with an archive and no icon. -/
def sampleRecord : ApplicationRecord where
  id := lit "id-1"
  bundleIdentifier := lit "com.example.app"
  version := lit "1.2.3"
  displayName := lit "Example"
  iconRelativePath := none
  archiveRelativePath := lit "id-1/ipa.ipa"
  size := 3
  createdAt := 0

/-- A service whose index holds the sample record and whose backend holds its archive. -/
def sampleService : DistributionService (List (GoString × List Nat)) where
  index := ⟨[sampleRecord], List.nodup_singleton _⟩
  blobs := [(lit "id-1/ipa.ipa", [80, 75, 3])]

/-! ## Lemmas on maps -/

theorem GoMap.get_set_self (m : GoMap) (k v : GoString) : (m.set k v).get k = some v := by
  simp [GoMap.get, GoMap.set, List.lookup]

theorem GoMap.get_empty (k : GoString) : GoMap.empty.get k = none := rfl

theorem redirect_eq {ρ ω : Type} (m : GoMap) (next : Handler ρ ω) (w : ω) (r : Request ρ) :
    redirect m next w r = next w { Path := (m.get r.Path).getD r.Path, other := r.other } := by
  unfold redirect
  cases h : m.get r.Path <;> simp

/-! ## Properties of `redirect` -/

/-- C8: `redirect m next` hands the request to `next` exactly once, with the path `m[p]`
when the request path `p` is a key of `m` and with `p` otherwise; the value found is not
looked up again and the rest of the request is unchanged. Stated for an arbitrary `next`,
and for the recording handler, whose log grows by exactly that one request. -/
theorem redirect_single_step {ρ ω : Type} (m : GoMap) (next : Handler ρ ω) (w : ω)
    (r : Request ρ) (log : List (Request ρ)) :
    redirect m next w r
        = next w { Path := (m.get r.Path).getD r.Path, other := r.other }
      ∧ redirect m (recorder ρ) log r
        = log ++ [{ Path := (m.get r.Path).getD r.Path, other := r.other }] := by
  exact ⟨redirect_eq m next w r, redirect_eq m (recorder ρ) log r⟩

/-- C1: a request whose path is `/` followed by the metadata path reaches the static file
server with its path replaced by `/` followed by the startup UUID string `u`; hence, when
`u` differs from the metadata path, no request served for it asks the file server for the
metadata path. -/
theorem metadata_path_blocked {ρ ω : Type} (metadataPath u : GoString)
    (fileServer : Handler ρ ω) (w : ω) (r : Request ρ) (log : List (Request ρ))
    (hr : r.Path = sprintfSlash metadataPath) :
    staticHandler metadataPath u fileServer w r
        = fileServer w { Path := sprintfSlash u, other := r.other }
      ∧ staticHandler metadataPath u (recorder ρ) log r
        = log ++ [{ Path := sprintfSlash u, other := r.other }]
      ∧ (u ≠ metadataPath →
          ∀ q ∈ staticHandler metadataPath u (recorder ρ) [] r,
            q.Path ≠ sprintfSlash metadataPath) := by
  have hget : (staticRedirects metadataPath u).get r.Path = some (sprintfSlash u) := by
    rw [hr]
    exact GoMap.get_set_self _ _ _
  have key : ∀ {ω' : Type} (next : Handler ρ ω') (w' : ω'),
      staticHandler metadataPath u next w' r
        = next w' { Path := sprintfSlash u, other := r.other } := by
    intro ω' next w'
    unfold staticHandler
    rw [redirect_eq, hget]
    rfl
  refine ⟨key fileServer w, key (recorder ρ) log, ?_⟩
  intro hne q hq
  rw [key (recorder ρ) []] at hq
  simp only [recorder, List.nil_append, List.mem_singleton] at hq
  subst hq
  simp only [sprintfSlash]
  intro h
  exact hne (List.append_cancel_left h)

/-- Witness for C1 at the default metadata path `appList.json`, with a request that
carries the method as its remaining content. -/
theorem metadata_path_blocked_witness :
    staticHandler (lit "appList.json") (lit "123e4567-e89b-12d3-a456-426614174000")
        (recorder String) []
        { Path := lit "/appList.json", other := "GET" }
      = [{ Path := lit "/123e4567-e89b-12d3-a456-426614174000", other := "GET" }]
    ∧ ∀ q ∈ staticHandler (lit "appList.json") (lit "123e4567-e89b-12d3-a456-426614174000")
        (recorder String) [] { Path := lit "/appList.json", other := "GET" },
        q.Path ≠ lit "/appList.json" :=
  ⟨(metadata_path_blocked (lit "appList.json") (lit "123e4567-e89b-12d3-a456-426614174000")
      (recorder String) [] { Path := lit "/appList.json", other := "GET" } []
      (by decide)).1,
   (metadata_path_blocked (lit "appList.json") (lit "123e4567-e89b-12d3-a456-426614174000")
      (recorder String) [] { Path := lit "/appList.json", other := "GET" } []
      (by decide)).2.2 (by decide)⟩

/-- The value found in the map is not looked up again: with `/a` sent to `/b` and `/b`
sent to `/c`, a request for `/a` reaches the next handler as `/b`. -/
theorem redirect_not_chained :
    redirect ((GoMap.empty.set (lit "/a") (lit "/b")).set (lit "/b") (lit "/c"))
        (recorder Unit) [] { Path := lit "/a", other := () }
      = [{ Path := lit "/b", other := () }] := by
  decide

/-! ## Lemmas on `strings.Split` and on the startup code -/

theorem stringsSplit_of_not_mem (sep : Nat) (a : GoString) (h : sep ∉ a) :
    stringsSplit sep a = [a] := by
  induction a with
  | nil => rfl
  | cons c rest ih =>
    have hc : c ≠ sep := fun e => h (by simp [e])
    have hrest : sep ∉ rest := fun m => h (List.mem_cons_of_mem _ m)
    simp [stringsSplit, hc, ih hrest]

theorem stringsSplit_append (sep : Nat) (a rest : GoString) (h : sep ∉ a) :
    stringsSplit sep (a ++ sep :: rest) = a :: stringsSplit sep rest := by
  induction a with
  | nil => simp [stringsSplit]
  | cons c tail ih =>
    have hc : c ≠ sep := fun e => h (by simp [e])
    have htail : sep ∉ tail := fun m => h (List.mem_cons_of_mem _ m)
    simp [stringsSplit, hc, ih htail]

theorem stringsSplit_length (sep : Nat) (s : GoString) :
    (stringsSplit sep s).length = s.count sep + 1 := by
  induction s with
  | nil => rfl
  | cons c rest ih =>
    by_cases hc : c = sep
    · subst hc
      simp [stringsSplit, ih]
    · have hne : (c == sep) = false := by simpa using hc
      simp only [stringsSplit, hc, if_false, List.count_cons, hne]
      cases hs : stringsSplit sep rest <;> simp_all

theorem lit_colon : lit ":" = [colon] := by decide

theorem stringsSplit_four_fields (ak sk zone bucket : GoString)
    (hak : colon ∉ ak) (hsk : colon ∉ sk) (hzone : colon ∉ zone) (hbucket : colon ∉ bucket) :
    stringsSplit colon (ak ++ lit ":" ++ sk ++ lit ":" ++ zone ++ lit ":" ++ bucket)
      = [ak, sk, zone, bucket] := by
  rw [lit_colon]
  simp only [List.append_assoc, List.singleton_append, List.cons_append, List.nil_append]
  rw [stringsSplit_append _ _ _ hak, stringsSplit_append _ _ _ hsk,
    stringsSplit_append _ _ _ hzone, stringsSplit_of_not_mem _ _ hbucket]

theorem registerRoutes_ok {ε Q : Type} (srv : Service Q) (f : Flags) (u : GoString) :
    (registerRoutes srv f u : Except (Panic ε) (ServeMux Q)) = .ok
      ⟨[(lit "/api/list", .api (listHandler srv f)),
        (lit "/api/info/", .api (findHandler srv f)),
        (lit "/api/upload", .api (addHandler srv f)),
        (lit "/api/delete", .api (deleteHandler srv f)),
        (lit "/plist/", .api (plistHandler srv f)),
        (lit "/", .static (staticRedirects f.metadataPath u))]⟩ := by
  rfl

theorem main_calls {ε Q : Type}
    (newQiniu : GoString → GoString → GoString → GoString → GoString → Except ε Q)
    (u : GoString) (f : Flags) :
    (main newQiniu u f).calls = (selectStore newQiniu f).calls := by
  unfold main
  cases h : (selectStore newQiniu f).result with
  | error p => simp [h]
  | ok store => simp [h, registerRoutes_ok]

theorem main_result {ε Q : Type}
    (newQiniu : GoString → GoString → GoString → GoString → GoString → Except ε Q)
    (u : GoString) (f : Flags) :
    (main newQiniu u f).result =
      match (selectStore newQiniu f).result with
      | .error p => .error p
      | .ok store =>
        match (registerRoutes ⟨store, f.publicURL, f.metadataPath⟩ f u :
            Except (Panic ε) (ServeMux Q)) with
        | .error p => .error p
        | .ok serve => .ok ⟨⟨store, f.publicURL, f.metadataPath⟩, serve⟩ := by
  unfold main
  cases h : (selectStore newQiniu f).result with
  | error p => simp [h]
  | ok store => simp [h, registerRoutes_ok]

theorem lit_empty : lit "" = [] := by decide

theorem qiniuArgs_four_fields {ε : Type} (ak sk zone bucket : GoString)
    (hak : colon ∉ ak) (hsk : colon ∉ sk) (hzone : colon ∉ zone) (hbucket : colon ∉ bucket) :
    (qiniuArgs (ak ++ lit ":" ++ sk ++ lit ":" ++ zone ++ lit ":" ++ bucket) :
        Except (Panic ε) (GoString × GoString × GoString × GoString))
      = .ok (ak, sk, zone, bucket) := by
  unfold qiniuArgs
  rw [stringsSplit_four_fields ak sk zone bucket hak hsk hzone hbucket]
  rfl

theorem selectStore_empty {ε Q : Type}
    (newQiniu : GoString → GoString → GoString → GoString → GoString → Except ε Q)
    (f : Flags) (h : f.qiniuConfig = lit "") :
    selectStore newQiniu f
      = ⟨[.NewOsFileStorager f.storageDir], .ok (.osFile f.storageDir)⟩ := by
  simp [selectStore, h]

theorem qiniuArgs_of_split {ε : Type} (config a0 a1 a2 a3 : GoString) (rest : List GoString)
    (hs : stringsSplit colon config = a0 :: a1 :: a2 :: a3 :: rest) :
    (qiniuArgs config : Except (Panic ε) (GoString × GoString × GoString × GoString))
      = .ok (a0, a1, a2, a3) := by
  unfold qiniuArgs
  rw [hs]
  simp [index, bind, Except.bind, pure, Except.pure]

theorem split_of_qiniuArgs {ε : Type} (config a0 a1 a2 a3 : GoString)
    (h : (qiniuArgs config : Except (Panic ε) (GoString × GoString × GoString × GoString))
      = .ok (a0, a1, a2, a3)) :
    ∃ rest, stringsSplit colon config = a0 :: a1 :: a2 :: a3 :: rest := by
  unfold qiniuArgs at h
  generalize stringsSplit colon config = args at h
  match args, h with
  | [], h => cases h
  | [_], h => cases h
  | [_, _], h => cases h
  | [_, _, _], h => cases h
  | b0 :: b1 :: b2 :: b3 :: rest, h =>
    simp [index, bind, Except.bind, pure, Except.pure] at h
    obtain ⟨rfl, rfl, rfl, rfl⟩ := h
    exact ⟨rest, rfl⟩

theorem selectStore_four_fields {ε Q : Type}
    (newQiniu : GoString → GoString → GoString → GoString → GoString → Except ε Q)
    (f : Flags) (a0 a1 a2 a3 : GoString) (rest : List GoString)
    (hq : f.qiniuConfig ≠ lit "")
    (hs : stringsSplit colon f.qiniuConfig = a0 :: a1 :: a2 :: a3 :: rest) :
    selectStore newQiniu f =
      match newQiniu a0 a1 a2 a3 f.qiniuURL with
      | .error err =>
        ⟨[.NewQiniuStorager a0 a1 a2 a3 f.qiniuURL], .error (.constructorError err)⟩
      | .ok s => ⟨[.NewQiniuStorager a0 a1 a2 a3 f.qiniuURL], .ok (.qiniu s)⟩ := by
  unfold selectStore
  rw [if_pos hq, qiniuArgs_of_split f.qiniuConfig a0 a1 a2 a3 rest hs]

theorem selectStore_remote_of_ok {ε Q : Type}
    (newQiniu : GoString → GoString → GoString → GoString → GoString → Except ε Q)
    (f : Flags) (h : f.qiniuConfig ≠ lit "") (store : Storager Q)
    (hs : (selectStore newQiniu f).result = .ok store) :
    ∃ a0 a1 a2 a3 rest s,
      stringsSplit colon f.qiniuConfig = a0 :: a1 :: a2 :: a3 :: rest ∧
      newQiniu a0 a1 a2 a3 f.qiniuURL = .ok s ∧ store = .qiniu s := by
  cases hq : (qiniuArgs f.qiniuConfig :
      Except (Panic ε) (GoString × GoString × GoString × GoString)) with
  | error p =>
    unfold selectStore at hs
    rw [if_pos h, hq] at hs
    simp at hs
  | ok t =>
    obtain ⟨a0, a1, a2, a3⟩ := t
    obtain ⟨rest, hsplit⟩ := split_of_qiniuArgs f.qiniuConfig a0 a1 a2 a3 hq
    rw [selectStore_four_fields newQiniu f a0 a1 a2 a3 rest h hsplit] at hs
    cases hn : newQiniu a0 a1 a2 a3 f.qiniuURL with
    | error err => simp [hn] at hs
    | ok s =>
      simp only [hn, Except.ok.injEq] at hs
      exact ⟨a0, a1, a2, a3, rest, s, hsplit, hn, hs.symm⟩

theorem main_ok_iff {ε Q : Type}
    (newQiniu : GoString → GoString → GoString → GoString → GoString → Except ε Q)
    (u : GoString) (f : Flags) (server : Server Q) :
    (main newQiniu u f).result = .ok server ↔
      (selectStore newQiniu f).result = .ok server.srv.store ∧
      server.srv.publicURL = f.publicURL ∧ server.srv.metadataPath = f.metadataPath ∧
      (registerRoutes server.srv f u : Except (Panic ε) (ServeMux Q)) = .ok server.serve := by
  rw [main_result]
  cases h : (selectStore newQiniu f).result with
  | error p => simp
  | ok store =>
    obtain ⟨⟨store2, pu, mp⟩, serve⟩ := server
    simp only [registerRoutes_ok, Except.ok.injEq, Server.mk.injEq, Service.mk.injEq]
    constructor
    · rintro ⟨⟨rfl, rfl, rfl⟩, rfl⟩
      exact ⟨rfl, rfl, rfl, rfl⟩
    · rintro ⟨rfl, rfl, rfl, rfl⟩
      exact ⟨⟨rfl, rfl, rfl⟩, rfl⟩

/-- A flag value that is not empty and has fewer than three `:` stops the startup with
an index panic before any constructor is called. -/
theorem selectStore_index_panic {ε Q : Type}
    (newQiniu : GoString → GoString → GoString → GoString → GoString → Except ε Q)
    (f : Flags) (h : f.qiniuConfig ≠ lit "") (hc : f.qiniuConfig.count colon < 3) :
    selectStore newQiniu f
      = ⟨[], .error (.indexOutOfRange (f.qiniuConfig.count colon + 1)
          (f.qiniuConfig.count colon + 1))⟩ := by
  have hlen := stringsSplit_length colon f.qiniuConfig
  unfold selectStore
  rw [if_pos h]
  unfold qiniuArgs
  generalize stringsSplit colon f.qiniuConfig = args at hlen
  generalize List.count colon f.qiniuConfig = n at hlen hc
  match args, hlen with
  | [], hl => simp at hl
  | [a], hl =>
    have : n = 0 := by simpa using hl.symm
    subst this; rfl
  | [a, b], hl =>
    have : n = 1 := by simpa using hl.symm
    subst this; rfl
  | [a, b, c], hl =>
    have : n = 2 := by simpa using hl.symm
    subst this; rfl
  | a :: b :: c :: d :: rest, hl =>
    simp at hl
    omega

/-! ## Properties of the startup code -/

/-- C2 (the code at the failing input): with the flag value `AK:SK:BUCKET`, which is not
empty, `strings.Split` yields three fields and the operand `args[3]` is out of range:
`main` stops with the run-time panic `index out of range [3] with length 3`, whatever the
constructor is, before any constructor is called. -/
theorem qiniu_three_fields_index_panic {ε Q : Type}
    (newQiniu : GoString → GoString → GoString → GoString → GoString → Except ε Q)
    (u : GoString) :
    lit "AK:SK:BUCKET" ≠ lit "" ∧
      stringsSplit colon (lit "AK:SK:BUCKET") = [lit "AK", lit "SK", lit "BUCKET"] ∧
      (main newQiniu u { defaultFlags with qiniuConfig := lit "AK:SK:BUCKET" }).calls = [] ∧
      (main newQiniu u { defaultFlags with qiniuConfig := lit "AK:SK:BUCKET" }).result
        = .error (.indexOutOfRange 3 3) := by
  refine ⟨by decide, by decide, ?_, ?_⟩
  · rw [main_calls, selectStore_index_panic newQiniu _ (by decide) (by decide)]
  · rw [main_result, selectStore_index_panic newQiniu _ (by decide) (by decide)]
    rfl

/-- C3: when the qiniu flag value is `AK:SK:ZONE:BUCKET` with no `:` inside the four
fields and `AK` not empty (`ZONE` may be empty), `main` applies the remote constructor to
exactly the arguments `AK, SK, ZONE, BUCKET` and the value of the flag `qiniu-url`, in
that order: the outcome of the backend selection is the outcome of that application
(its backend, or its error as a panic), `main` hands that backend to the service or stops
with that error, and the application is the only constructor call. -/
theorem qiniu_constructor_arguments {ε Q : Type}
    (newQiniu : GoString → GoString → GoString → GoString → GoString → Except ε Q)
    (u : GoString) (f : Flags) (ak sk zone bucket : GoString)
    (hak : colon ∉ ak) (hsk : colon ∉ sk) (hzone : colon ∉ zone) (hbucket : colon ∉ bucket)
    (hne : ak ≠ lit "")
    (hf : f.qiniuConfig = ak ++ lit ":" ++ sk ++ lit ":" ++ zone ++ lit ":" ++ bucket) :
    (selectStore newQiniu f).result =
        (match newQiniu ak sk zone bucket f.qiniuURL with
          | .ok s => .ok (.qiniu s)
          | .error err => .error (.constructorError err))
      ∧ (match newQiniu ak sk zone bucket f.qiniuURL with
          | .ok s => ∃ serve, (main newQiniu u f).result
              = .ok ⟨⟨.qiniu s, f.publicURL, f.metadataPath⟩, serve⟩
          | .error err => (main newQiniu u f).result = .error (.constructorError err))
      ∧ (main newQiniu u f).calls = [.NewQiniuStorager ak sk zone bucket f.qiniuURL] := by
  have hq : f.qiniuConfig ≠ lit "" := by
    rw [hf, lit_empty]
    intro h
    simp only [List.append_eq_nil, List.append_assoc] at h
    exact hne (by rw [lit_empty]; exact h.1)
  have hs : stringsSplit colon f.qiniuConfig = ak :: sk :: zone :: bucket :: [] := by
    rw [hf]
    exact stringsSplit_four_fields ak sk zone bucket hak hsk hzone hbucket
  have hsel := selectStore_four_fields newQiniu f ak sk zone bucket [] hq hs
  rw [main_calls, main_result, hsel]
  cases newQiniu ak sk zone bucket f.qiniuURL with
  | error err => exact ⟨rfl, rfl, rfl⟩
  | ok s => exact ⟨rfl, ⟨_, rfl⟩, rfl⟩

/-- Witness for C3: the flag value `AK:SK::BUCKET`, with an empty zone, and a constructor
that returns its five arguments as the backend: the backend selected holds `AK`, `SK`,
the empty zone, `BUCKET` and the value of `qiniu-url`, in that order. -/
theorem qiniu_constructor_arguments_witness :
    (selectStore
        (fun a b c d e =>
          (Except.ok (a, b, c, d, e) :
            Except String (GoString × GoString × GoString × GoString × GoString)))
        { defaultFlags with
          qiniuConfig := lit "AK:SK::BUCKET", qiniuURL := lit "https://cdn.example.com" }).result
      = .ok (.qiniu (lit "AK", lit "SK", lit "", lit "BUCKET", lit "https://cdn.example.com")) :=
  (qiniu_constructor_arguments
    (fun a b c d e =>
      (Except.ok (a, b, c, d, e) :
        Except String (GoString × GoString × GoString × GoString × GoString)))
    (lit "u")
    { defaultFlags with
      qiniuConfig := lit "AK:SK::BUCKET", qiniuURL := lit "https://cdn.example.com" }
    (lit "AK") (lit "SK") (lit "") (lit "BUCKET")
    (by decide) (by decide) (by decide) (by decide) (by decide) (by decide)).1

/-- C4, as the claim is worded, fails: with the non-empty qiniu flag value
`AK:SK:ZONE:BUCKET` and a constructor that reports an error, `main` stops with
`panic(err)` and hands no backend to the service; and with the non-empty value `a`,
`main` stops before any constructor is called and hands no backend to the service. -/
theorem no_backend_handed_over :
    ({ defaultFlags with qiniuConfig := lit "AK:SK:ZONE:BUCKET" } : Flags).qiniuConfig ≠ lit ""
      ∧ (main (fun _ _ _ _ _ => (Except.error "unknown zone" : Except String Unit)) (lit "u")
          { defaultFlags with qiniuConfig := lit "AK:SK:ZONE:BUCKET" }).result
        = .error (.constructorError "unknown zone")
      ∧ (¬ ∃ server,
          (main (fun _ _ _ _ _ => (Except.error "unknown zone" : Except String Unit)) (lit "u")
            { defaultFlags with qiniuConfig := lit "AK:SK:ZONE:BUCKET" }).result = .ok server)
      ∧ ({ defaultFlags with qiniuConfig := lit "a" } : Flags).qiniuConfig ≠ lit ""
      ∧ (main (fun _ _ _ _ _ => (Except.ok () : Except String Unit)) (lit "u")
          { defaultFlags with qiniuConfig := lit "a" }).calls = []
      ∧ (¬ ∃ server,
          (main (fun _ _ _ _ _ => (Except.ok () : Except String Unit)) (lit "u")
            { defaultFlags with qiniuConfig := lit "a" }).result = .ok server) := by
  have h1 : (main (fun _ _ _ _ _ => (Except.error "unknown zone" : Except String Unit))
      (lit "u") { defaultFlags with qiniuConfig := lit "AK:SK:ZONE:BUCKET" }).result
        = .error (.constructorError "unknown zone") := rfl
  have h2 : (main (fun _ _ _ _ _ => (Except.ok () : Except String Unit)) (lit "u")
      { defaultFlags with qiniuConfig := lit "a" }).result
        = .error (.indexOutOfRange 1 1) := rfl
  refine ⟨by decide, h1, ?_, by decide, rfl, ?_⟩
  · rintro ⟨server, hserver⟩
    rw [h1] at hserver
    cases hserver
  · rintro ⟨server, hserver⟩
    rw [h2] at hserver
    cases hserver

/-- C4, amended: every backend that `main` hands to `service.New` is the remote variant
if and only if the qiniu flag value is not empty, and the local variant rooted at the
value of the flag `dir` if and only if it is empty; exactly one constructor call was made
in such a run, and a remote backend handed over is the one the remote constructor
returned on the first four fields of the value and `qiniu-url`. With an empty qiniu flag
value `main` always hands the local backend over, whatever the remote constructor is.
With a non-empty value that splits into at least four fields, `main` hands over the
backend the remote constructor returns, and stops with the reported error when it
reports one. The default of the flag `dir` is `upload`. -/
theorem backend_handed_to_service {ε Q : Type}
    (newQiniu : GoString → GoString → GoString → GoString → GoString → Except ε Q)
    (u : GoString) (f : Flags) :
    (∀ server : Server Q, (main newQiniu u f).result = .ok server →
        ((∃ s, server.srv.store = .qiniu s) ↔ f.qiniuConfig ≠ lit "") ∧
        (server.srv.store = .osFile f.storageDir ↔ f.qiniuConfig = lit "") ∧
        (f.qiniuConfig ≠ lit "" →
          ∃ a0 a1 a2 a3 rest s,
            stringsSplit colon f.qiniuConfig = a0 :: a1 :: a2 :: a3 :: rest ∧
            newQiniu a0 a1 a2 a3 f.qiniuURL = .ok s ∧ server.srv.store = .qiniu s) ∧
        (main newQiniu u f).calls.length = 1)
      ∧ (f.qiniuConfig = lit "" →
          (main newQiniu u f).calls = [.NewOsFileStorager f.storageDir] ∧
          ∃ serve, (main newQiniu u f).result
            = .ok ⟨⟨.osFile f.storageDir, f.publicURL, f.metadataPath⟩, serve⟩)
      ∧ (f.qiniuConfig ≠ lit "" →
          ∀ a0 a1 a2 a3 rest,
            stringsSplit colon f.qiniuConfig = a0 :: a1 :: a2 :: a3 :: rest →
            (main newQiniu u f).calls = [.NewQiniuStorager a0 a1 a2 a3 f.qiniuURL] ∧
            (∀ s, newQiniu a0 a1 a2 a3 f.qiniuURL = .ok s →
              ∃ serve, (main newQiniu u f).result
                = .ok ⟨⟨.qiniu s, f.publicURL, f.metadataPath⟩, serve⟩) ∧
            (∀ err, newQiniu a0 a1 a2 a3 f.qiniuURL = .error err →
              (main newQiniu u f).result = .error (.constructorError err)))
      ∧ defaultFlags.storageDir = lit "upload" := by
  refine ⟨?_, ?_, ?_, by decide⟩
  · intro server hserver
    rw [main_ok_iff] at hserver
    rw [main_calls]
    by_cases h : f.qiniuConfig = lit ""
    · have hsel := selectStore_empty newQiniu f h
      rw [hsel] at hserver
      have hstore : server.srv.store = .osFile f.storageDir := by
        have := hserver.1
        simp only [Except.ok.injEq] at this
        exact this.symm
      rw [hsel, hstore]
      simp [h]
    · obtain ⟨a0, a1, a2, a3, rest, s, hsplit, hn, hstore⟩ :=
        selectStore_remote_of_ok newQiniu f h server.srv.store hserver.1
      have hsel := selectStore_four_fields newQiniu f a0 a1 a2 a3 rest h hsplit
      rw [hn] at hsel
      rw [hsel, hstore]
      refine ⟨by simp [h], by simp [h], ?_, rfl⟩
      intro _
      exact ⟨a0, a1, a2, a3, rest, s, hsplit, hn, rfl⟩
  · intro h
    rw [main_calls, main_result, selectStore_empty newQiniu f h]
    exact ⟨rfl, _, rfl⟩
  · intro h a0 a1 a2 a3 rest hsplit
    have hsel := selectStore_four_fields newQiniu f a0 a1 a2 a3 rest h hsplit
    rw [main_calls, main_result, hsel]
    refine ⟨?_, ?_, ?_⟩
    · cases newQiniu a0 a1 a2 a3 f.qiniuURL <;> rfl
    · intro s hn
      rw [hn]
      exact ⟨_, rfl⟩
    · intro err hn
      rw [hn]

/-- Witness for C4, amended: with the default flags the service gets the local backend
rooted at `upload`; with the flag value `AK:SK::BUCKET` and a constructor that returns its
five arguments as the backend, the service gets the remote backend built from `AK`, `SK`,
the empty zone, `BUCKET` and the value of `qiniu-url`. -/
theorem backend_handed_to_service_witness :
    (∃ serve,
        (main (fun _ _ _ _ _ => (Except.ok () : Except String Unit)) (lit "u")
          defaultFlags).result
          = .ok ⟨⟨.osFile (lit "upload"), lit "", lit "appList.json"⟩, serve⟩)
      ∧ (∃ serve,
        (main
          (fun a b c d e =>
            (Except.ok (a, b, c, d, e) :
              Except String (GoString × GoString × GoString × GoString × GoString)))
          (lit "u")
          { defaultFlags with
            qiniuConfig := lit "AK:SK::BUCKET", qiniuURL := lit "https://cdn.example.com" }).result
          = .ok ⟨⟨.qiniu (lit "AK", lit "SK", lit "", lit "BUCKET",
                lit "https://cdn.example.com"), lit "", lit "appList.json"⟩, serve⟩) :=
  ⟨((backend_handed_to_service (fun _ _ _ _ _ => (Except.ok () : Except String Unit))
      (lit "u") defaultFlags).2.1 (by decide)).2,
   ((backend_handed_to_service
      (fun a b c d e =>
        (Except.ok (a, b, c, d, e) :
          Except String (GoString × GoString × GoString × GoString × GoString)))
      (lit "u")
      { defaultFlags with
        qiniuConfig := lit "AK:SK::BUCKET", qiniuURL := lit "https://cdn.example.com" }).2.2.1
      (by decide) (lit "AK") (lit "SK") (lit "") (lit "BUCKET") [] (by decide)).2.1 _ rfl⟩

/-- C5: for every service, flag values and UUID string, the registration succeeds and
registers exactly the six patterns `/api/list`, `/api/info/`, `/api/upload`,
`/api/delete`, `/plist/` and `/`, which are pairwise distinct; the first five are bound
to the handlers built from the list, find, add, delete and plist endpoints, each endpoint
has exactly one route, and `/` is bound to the static-file handler. -/
theorem routes_registered {ε Q : Type} (srv : Service Q) (f : Flags) (u : GoString) :
    ∃ serve : ServeMux Q,
      (registerRoutes srv f u : Except (Panic ε) (ServeMux Q)) = .ok serve
      ∧ serve.patterns = [lit "/api/list", lit "/api/info/", lit "/api/upload",
          lit "/api/delete", lit "/plist/", lit "/"]
      ∧ serve.patterns.Nodup
      ∧ serve.handlerAt (lit "/api/list") = some (.api (listHandler srv f))
      ∧ serve.handlerAt (lit "/api/info/") = some (.api (findHandler srv f))
      ∧ serve.handlerAt (lit "/api/upload") = some (.api (addHandler srv f))
      ∧ serve.handlerAt (lit "/api/delete") = some (.api (deleteHandler srv f))
      ∧ serve.handlerAt (lit "/plist/") = some (.api (plistHandler srv f))
      ∧ serve.handlerAt (lit "/") = some (.static (staticRedirects f.metadataPath u))
      ∧ ((listHandler srv f).endpoint = .list ∧ (findHandler srv f).endpoint = .find
          ∧ (addHandler srv f).endpoint = .add ∧ (deleteHandler srv f).endpoint = .delete
          ∧ (plistHandler srv f).endpoint = .plist)
      ∧ ∀ e : Endpoint,
          (serve.entries.filter (fun r =>
            match r.2 with
            | .api h => decide (h.endpoint = e)
            | .static _ => false)).length = 1 := by
  have hnodup : [lit "/api/list", lit "/api/info/", lit "/api/upload",
      lit "/api/delete", lit "/plist/", lit "/"].Nodup := by decide
  refine ⟨_, registerRoutes_ok srv f u, rfl, hnodup, rfl, rfl, rfl, rfl, rfl, rfl,
    ⟨rfl, rfl, rfl, rfl, rfl⟩, ?_⟩
  intro e
  cases e <;> rfl

/-! ## The metadata index -/

theorem find?_eraseP_id (id : GoString) (l : List ApplicationRecord)
    (h : (l.map (fun r => r.id)).Nodup) :
    (l.eraseP (fun r => r.id == id)).find? (fun r => r.id == id) = none := by
  induction l with
  | nil => rfl
  | cons a t ih =>
    rw [List.map_cons, List.nodup_cons] at h
    by_cases ha : a.id = id
    · have hb : (a.id == id) = true := by simpa using ha
      have he : (a :: t).eraseP (fun r => r.id == id) = t := by
        simp [List.eraseP_cons, hb]
      rw [he, List.find?_eq_none]
      intro r hr hrid
      have : r.id = id := by simpa using hrid
      exact h.1 (List.mem_map.2 ⟨r, hr, by rw [this, ha]⟩)
    · have hb : ¬ (a.id == id) = true := by simpa using ha
      have he : (a :: t).eraseP (fun r => r.id == id)
          = a :: t.eraseP (fun r => r.id == id) := by
        simp [List.eraseP_cons, hb]
      rw [he]
      simp only [List.find?_cons, hb]
      exact ih h.2

theorem MetadataIndex.find_of_mem (idx : MetadataIndex) (id : GoString)
    (h : ∃ r ∈ idx.list, r.id = id) :
    ∃ r, idx.records.find? (fun r => r.id == id) = some r := by
  obtain ⟨r, hr, hid⟩ := h
  cases hf : idx.records.find? (fun r => r.id == id) with
  | some r2 => exact ⟨r2, rfl⟩
  | none =>
    rw [List.find?_eq_none] at hf
    exact absurd (by simpa using hid) (hf r hr)

/-- C6: for every state of the service and every identifier present in its index, the
first `remove(id)` returns success, a second `remove(id)` on the state it leaves returns
`NotFound` and changes nothing, and in that state `find(id)` returns `NotFound` and
`list()` holds no record with this identifier, whatever the backend does on deletion. -/
theorem remove_twice {B : Type} (backend : Backend B) (svc : DistributionService B)
    (id : GoString) (h : ∃ r ∈ svc.list, r.id = id) :
    ∃ svc1 : DistributionService B,
      DistributionService.remove backend svc id = (.ok (), svc1)
      ∧ DistributionService.remove backend svc1 id = (.error .NotFound, svc1)
      ∧ svc1.find id = .error .NotFound
      ∧ ∀ r ∈ svc1.list, r.id ≠ id := by
  obtain ⟨r, hr⟩ := MetadataIndex.find_of_mem svc.index id h
  have hnone := find?_eraseP_id id svc.index.records svc.index.unique
  refine ⟨⟨⟨svc.index.records.eraseP (fun r => r.id == id),
      svc.index.unique.sublist ((List.eraseP_sublist svc.index.records).map _)⟩,
    match r.iconRelativePath with
    | some icon =>
      backend.deleteBestEffort (backend.deleteBestEffort svc.blobs r.archiveRelativePath) icon
    | none => backend.deleteBestEffort svc.blobs r.archiveRelativePath⟩, ?_, ?_, ?_, ?_⟩
  · simp only [DistributionService.remove, MetadataIndex.find, MetadataIndex.remove, hr]
  · simp only [DistributionService.remove, MetadataIndex.find, hnone]
  · simp only [DistributionService.find, MetadataIndex.find, hnone]
  · intro q hq hqid
    rw [List.find?_eq_none] at hnone
    exact hnone q hq (by simpa using hqid)

/-- Witness for C6: the sample service, whose index holds the record `id-1`. -/
theorem remove_twice_witness :
    ∃ svc1 : DistributionService (List (GoString × List Nat)),
      DistributionService.remove memoryBackend sampleService (lit "id-1") = (.ok (), svc1)
      ∧ DistributionService.remove memoryBackend svc1 (lit "id-1") = (.error .NotFound, svc1)
      ∧ svc1.find (lit "id-1") = .error .NotFound
      ∧ ∀ r ∈ svc1.list, r.id ≠ lit "id-1" :=
  remove_twice memoryBackend sampleService (lit "id-1")
    ⟨sampleRecord, List.mem_singleton.2 rfl, rfl⟩

end IpaServer
